/-
Verification development for the Focus0 repository.

Shallow embedding of the core logic of the repository:
  * `src/hooks/usePomodoro.ts` — the Pomodoro phase state machine,
  * `src/hooks/useWindowFocus.ts` — window focus time accumulation,
  * `src/lib/youtube.ts` — YouTube URL parsing,
  * `src/lib/session.ts` — local-storage session persistence,
  * `src/app/api/sessions/route.ts` — file/in-memory sharing API,
  * `src/app/api/sessions/route-optimized.ts` — compressed URL payload codec,
  * `src/app/api/sessions/source-urls/route.ts` — source-URL sharing API.

Conventions of the embedding: JavaScript numbers that are only ever
non-negative integers in the program (counters, second counts) are
modelled as `Nat`; millisecond timestamps are modelled as `Int`.
External library bijections (JSON stringify/parse, gzip/gunzip,
base64url encode/decode, and the `encodeURIComponent` /
`URLSearchParams.get` transport pair around query parameters) are
elided: a value passes through such a pair unchanged, so the embedding
works with the value on either side of the pair directly.  The extra
`decodeURIComponent` call that the source-urls GET handler applies on
top of the already-decoded parameter is *not* part of such a pair and
is modelled explicitly.
-/
import Mathlib

namespace Focus0

/-! ## Pomodoro state machine (`src/hooks/usePomodoro.ts`) -/

/-- `PomodoroSettings` from `src/lib/session.ts` (durations in minutes). -/
structure PomodoroSettings where
  workDuration : Nat
  shortBreakDuration : Nat
  longBreakDuration : Nat
  longBreakInterval : Nat
deriving DecidableEq, Repr

/-- `PomodoroPhase` from `src/hooks/usePomodoro.ts`. -/
inductive PomodoroPhase where
  | work
  | shortBreak
  | longBreak
  | idle
deriving DecidableEq, Repr

/-- `PomodoroState` from `src/hooks/usePomodoro.ts` (`timeRemaining` in seconds). -/
structure PomodoroState where
  phase : PomodoroPhase
  timeRemaining : Nat
  isRunning : Bool
  completedPomodoros : Nat
  currentCycle : Nat
deriving DecidableEq, Repr

/-- The initial state of `usePomodoro` (lines 15–21). -/
def initialPomodoroState (s : PomodoroSettings) : PomodoroState :=
  { phase := .idle
    timeRemaining := s.workDuration * 60
    isRunning := false
    completedPomodoros := 0
    currentCycle := 1 }

/-- `getNextPhase` (usePomodoro.ts lines 40–46). -/
def getNextPhase (s : PomodoroSettings) (currentPhase : PomodoroPhase)
    (completedPomodoros : Nat) : PomodoroPhase :=
  if currentPhase = .work then
    if (completedPomodoros + 1) % s.longBreakInterval = 0 then .longBreak else .shortBreak
  else
    .work

/-- `getPhaseDuration` (usePomodoro.ts lines 48–59). -/
def getPhaseDuration (s : PomodoroSettings) : PomodoroPhase → Nat
  | .work => s.workDuration * 60
  | .shortBreak => s.shortBreakDuration * 60
  | .longBreak => s.longBreakDuration * 60
  | .idle => 0

/-- `startTimer` (usePomodoro.ts lines 61–71). -/
def startTimer (s : PomodoroSettings) (prev : PomodoroState) : PomodoroState :=
  { prev with
    phase := if prev.phase = .idle then .work else prev.phase
    isRunning := true
    timeRemaining :=
      if prev.phase = .idle then getPhaseDuration s .work else prev.timeRemaining }

/-- `pauseTimer` (usePomodoro.ts lines 73–75). -/
def pauseTimer (prev : PomodoroState) : PomodoroState :=
  { prev with isRunning := false }

/-- `resetTimer` (usePomodoro.ts lines 77–85). -/
def resetTimer (s : PomodoroSettings) (_prev : PomodoroState) : PomodoroState :=
  initialPomodoroState s

/-- `skipPhase` (usePomodoro.ts lines 87–102). -/
def skipPhase (s : PomodoroSettings) (prev : PomodoroState) : PomodoroState :=
  let nextPhase := getNextPhase s prev.phase prev.completedPomodoros
  let newCompletedPomodoros :=
    if prev.phase = .work then prev.completedPomodoros + 1 else prev.completedPomodoros
  { prev with
    phase := nextPhase
    timeRemaining := getPhaseDuration s nextPhase
    completedPomodoros := newCompletedPomodoros
    currentCycle :=
      if nextPhase = .work then prev.currentCycle + 1 else prev.currentCycle }

/-- One firing of the interval callback of the timer tick effect
(usePomodoro.ts lines 104–144).  The interval only exists while
`state.isRunning && state.timeRemaining > 0`, so outside that guard a
tick changes nothing. -/
def tick (s : PomodoroSettings) (prev : PomodoroState) : PomodoroState :=
  if prev.isRunning ∧ prev.timeRemaining > 0 then
    let newTimeRemaining := prev.timeRemaining - 1
    if newTimeRemaining = 0 then
      let nextPhase := getNextPhase s prev.phase prev.completedPomodoros
      let newCompletedPomodoros :=
        if prev.phase = .work then prev.completedPomodoros + 1 else prev.completedPomodoros
      { prev with
        phase := nextPhase
        timeRemaining := getPhaseDuration s nextPhase
        completedPomodoros := newCompletedPomodoros
        currentCycle :=
          if nextPhase = .work then prev.currentCycle + 1 else prev.currentCycle
        isRunning := true }
    else
      { prev with timeRemaining := newTimeRemaining }
  else
    prev

/-- States reachable from the initial `usePomodoro` state by the exposed
operations and timer ticks. -/
inductive PomodoroReachable (s : PomodoroSettings) : PomodoroState → Prop where
  | init : PomodoroReachable s (initialPomodoroState s)
  | start {st} : PomodoroReachable s st → PomodoroReachable s (startTimer s st)
  | pause {st} : PomodoroReachable s st → PomodoroReachable s (pauseTimer st)
  | reset {st} : PomodoroReachable s st → PomodoroReachable s (resetTimer s st)
  | skip {st} : PomodoroReachable s st → PomodoroReachable s (skipPhase s st)
  | step {st} : PomodoroReachable s st → PomodoroReachable s (tick s st)

/-! ## Window focus tracking (`src/hooks/useWindowFocus.ts`) -/

/-- The state held by `useWindowFocus` (times in milliseconds). -/
structure FocusState where
  isWindowFocused : Bool
  focusStartTime : Int
  totalFocusTime : Int
deriving DecidableEq, Repr

/-- `handleFocus` (useWindowFocus.ts lines 8–11); `now` is `Date.now()`. -/
def handleFocus (now : Int) (st : FocusState) : FocusState :=
  { st with isWindowFocused := true, focusStartTime := now }

/-- `handleBlur` (useWindowFocus.ts lines 13–17). -/
def handleBlur (now : Int) (st : FocusState) : FocusState :=
  { st with
    isWindowFocused := false
    totalFocusTime := st.totalFocusTime + (now - st.focusStartTime) }

/-- `resetFocusTime` (useWindowFocus.ts lines 19–22). -/
def resetFocusTime (now : Int) (st : FocusState) : FocusState :=
  { st with totalFocusTime := 0, focusStartTime := now }

/-- `getCurrentFocusTime` (useWindowFocus.ts lines 46–49). -/
def getCurrentFocusTime (now : Int) (st : FocusState) : Int :=
  if !st.isWindowFocused then st.totalFocusTime
  else st.totalFocusTime + (now - st.focusStartTime)

/-- A browser focus or blur event, carrying the `Date.now()` value at which
its handler runs. -/
inductive FocusEvent where
  | focusEvt (t : Int)
  | blurEvt (t : Int)
deriving DecidableEq, Repr

/-- Dispatch of one event to its handler. -/
def applyFocusEvent (st : FocusState) : FocusEvent → FocusState
  | .focusEvt t => handleFocus t st
  | .blurEvt t => handleBlur t st

/-- Running a sequence of focus/blur events. -/
def runFocusEvents (st : FocusState) (es : List FocusEvent) : FocusState :=
  es.foldl applyFocusEvent st

/-- Specification-side list of durations of the completed
focus-to-blur intervals of a trace.  `pending` is the start time of the
currently open interval, if any. -/
def completedIntervals : Option Int → List FocusEvent → List Int
  | _, [] => []
  | _, .focusEvt t :: rest => completedIntervals (some t) rest
  | some s, .blurEvt t :: rest => (t - s) :: completedIntervals none rest
  | none, .blurEvt _ :: rest => completedIntervals none rest

/-- Specification-side start time of the focus interval left open by a
trace, if the trace ends focused. -/
def pendingFocusStart : Option Int → List FocusEvent → Option Int
  | p, [] => p
  | _, .focusEvt t :: rest => pendingFocusStart (some t) rest
  | _, .blurEvt _ :: rest => pendingFocusStart none rest

/-- A trace is well formed for a starting focus flag `b` when focus and
blur events strictly alternate: a focus event only arrives while
blurred and a blur event only while focused. -/
def wfFocusTrace : Bool → List FocusEvent → Bool
  | _, [] => true
  | b, .focusEvt _ :: rest => !b && wfFocusTrace true rest
  | b, .blurEvt _ :: rest => b && wfFocusTrace false rest

/-! ## YouTube URL parsing (`src/lib/youtube.ts`)

The regular expressions of the source are compiled by hand into
scanning functions over `List Char` with JavaScript `String.match`
semantics: the match starting at the leftmost possible position wins,
a `+`-captured group must be non-empty (otherwise the scan resumes one
position further right), `.` does not cross a newline, and a greedy
`.*` yields the rightmost viable continuation. -/

/-- The whitespace class of JavaScript `String.prototype.trim`
(restricted to its ASCII members). -/
def jsWhitespaceChar (c : Char) : Bool :=
  c = ' ' || c = '\t' || c = '\n' || c = '\r' || c = '\x0b' || c = '\x0c'

/-- JavaScript `s.trim()` over character lists. -/
def jsTrim (cs : List Char) : List Char :=
  ((cs.dropWhile jsWhitespaceChar).reverse.dropWhile jsWhitespaceChar).reverse

/-- JavaScript `s.trim()` on strings. -/
def jsTrimString (s : String) : String := String.mk (jsTrim s.toList)

/-- The character class `[^&\n?#]` common to the capture groups. -/
def isStopChar (c : Char) : Bool := c = '&' || c = '\n' || c = '?' || c = '#'

/-- Longest `[^&\n?#]*` run at the head of the input. -/
def takeCapture (cs : List Char) : List Char := cs.takeWhile (fun c => !isStopChar c)

/-- Scan for `/[&?]list=([^&\n?#]+)/` (extractPlaylistId, youtube.ts
lines 18–21). -/
def findListParam : List Char → Option (List Char)
  | [] => none
  | c :: rest =>
    if (c = '&' || c = '?') && "list=".toList.isPrefixOf rest then
      let cap := takeCapture (rest.drop 5)
      if cap.isEmpty then findListParam rest else some cap
    else
      findListParam rest

/-- `extractPlaylistId` (youtube.ts lines 18–21). -/
def extractPlaylistId (url : String) : Option String :=
  (findListParam url.toList).map fun cs => String.mk cs

/-- Scan for the first pattern of `extractVideoId`:
`/(?:youtube\.com\/watch\?v=|youtu\.be\/|youtube\.com\/embed\/)([^&\n?#]+)/`. -/
def findVid1 : List Char → Option (List Char)
  | [] => none
  | c :: rest =>
    let s := c :: rest
    let afterLiteral : Option (List Char) :=
      if "youtube.com/watch?v=".toList.isPrefixOf s then some (s.drop 20)
      else if "youtu.be/".toList.isPrefixOf s then some (s.drop 9)
      else if "youtube.com/embed/".toList.isPrefixOf s then some (s.drop 18)
      else none
    match afterLiteral with
    | some tail =>
      let cap := takeCapture tail
      if cap.isEmpty then findVid1 rest else some cap
    | none => findVid1 rest

/-- Rightmost `v=([^&\n?#]+)` with a non-empty capture in a segment
(the greedy `.*` of the second pattern backtracks from the right). -/
def lastVCapture : List Char → Option (List Char)
  | [] => none
  | c :: rest =>
    match lastVCapture rest with
    | some cap => some cap
    | none =>
      if c = 'v' && "=".toList.isPrefixOf rest then
        let cap := takeCapture (rest.drop 1)
        if cap.isEmpty then none else some cap
      else none

/-- Scan for the second pattern of `extractVideoId`:
`/youtube\.com\/watch\?.*v=([^&\n?#]+)/` (the `.*` stays on one line). -/
def findVid2 : List Char → Option (List Char)
  | [] => none
  | c :: rest =>
    let s := c :: rest
    if "youtube.com/watch?".toList.isPrefixOf s then
      match lastVCapture ((s.drop 18).takeWhile (fun ch => ch ≠ '\n')) with
      | some cap => some cap
      | none => findVid2 rest
    else findVid2 rest

/-- `extractVideoId` (youtube.ts lines 4–16): the first pattern is
tried on the whole string, then the second. -/
def extractVideoId (url : String) : Option String :=
  match findVid1 url.toList with
  | some cap => some (String.mk cap)
  | none => (findVid2 url.toList).map fun cs => String.mk cs

/-- `isValidYouTubeUrl` (youtube.ts lines 23–26), the anchored test
`/^(https?:\/\/)?(www\.)?(youtube\.com|youtu\.be)\//`. -/
def isValidYouTubeUrl (url : String) : Bool :=
  let cs := url.toList
  let s1 :=
    if "https://".toList.isPrefixOf cs then cs.drop 8
    else if "http://".toList.isPrefixOf cs then cs.drop 7
    else cs
  let s2 := if "www.".toList.isPrefixOf s1 then s1.drop 4 else s1
  "youtube.com/".toList.isPrefixOf s2 || "youtu.be/".toList.isPrefixOf s2

/-- `VideoInfo` (youtube.ts lines 28–34). -/
structure VideoInfo where
  id : String
  url : String
  title : Option String := none
  duration : Option Nat := none
  thumbnail : Option String := none
deriving DecidableEq, Repr

/-- `PlaylistInfo` (youtube.ts lines 36–41). -/
structure PlaylistInfo where
  id : String
  url : String
  title : Option String := none
  videos : List VideoInfo
deriving DecidableEq, Repr

/-- The five placeholder videos built for a playlist entry
(youtube.ts lines 69–74). -/
def placeholderVideos (playlistId : String) : List VideoInfo :=
  (List.range 5).map fun i =>
    { id := playlistId ++ "_video_" ++ toString (i + 1)
      url := "https://youtube.com/watch?v=" ++ playlistId ++ "_video_" ++
        toString (i + 1) ++ "&list=" ++ playlistId
      title := some ("Loading playlist video " ++ toString (i + 1) ++ "...")
      duration := some 300 }

/-- The result record of `parseYouTubeUrls`. -/
structure ParsedUrls where
  videos : List VideoInfo
  playlists : List PlaylistInfo
  errors : List String
deriving DecidableEq, Repr

/-- What a single line contributes in the `forEach` body of
`parseYouTubeUrls` (youtube.ts lines 53–90). -/
inductive LineClass where
  | blank
  | video (v : VideoInfo)
  | playlist (p : PlaylistInfo)
  | err (e : String)
deriving DecidableEq, Repr

/-- The `forEach` body of `parseYouTubeUrls` for the line at position
`index`. -/
def classifyLine (index : Nat) (url : String) : LineClass :=
  let trimmedUrl := jsTrimString url
  if trimmedUrl = "" then .blank
  else if !isValidYouTubeUrl trimmedUrl then
    .err s!"Invalid YouTube URL at line {index + 1}: {trimmedUrl}"
  else
    match extractPlaylistId trimmedUrl, extractVideoId trimmedUrl with
    | some playlistId, _ =>
      .playlist
        { id := playlistId
          url := trimmedUrl
          title := some "Loading playlist..."
          videos := placeholderVideos playlistId }
    | none, some videoId => .video { id := videoId, url := trimmedUrl }
    | none, none => .err s!"Could not extract video or playlist ID from: {trimmedUrl}"

/-- `parseYouTubeUrls` starting at line position `index`. -/
def parseYouTubeUrlsFrom (index : Nat) : List String → ParsedUrls
  | [] => { videos := [], playlists := [], errors := [] }
  | url :: rest =>
    let r := parseYouTubeUrlsFrom (index + 1) rest
    match classifyLine index url with
    | .blank => r
    | .video v => { r with videos := v :: r.videos }
    | .playlist p => { r with playlists := p :: r.playlists }
    | .err e => { r with errors := e :: r.errors }

/-- `parseYouTubeUrls` (youtube.ts lines 44–93). -/
def parseYouTubeUrls (urls : List String) : ParsedUrls := parseYouTubeUrlsFrom 0 urls

/-! ## Local-storage persistence (`src/lib/session.ts`) -/

/-- `AmbientSound` (session.ts lines 10–16). -/
structure AmbientSound where
  id : String
  name : String
  url : String
  enabled : Bool
  volume : Float
deriving Repr

/-- `StudySession` (session.ts lines 18–31). -/
structure StudySession where
  id : String
  name : String
  createdAt : String
  videos : List VideoInfo
  playlists : List PlaylistInfo
  currentVideoIndex : Nat
  focusTime : Nat
  pomodoroSettings : PomodoroSettings
  ambientSounds : List AmbientSound
  isActive : Bool
  totalStudyTime : Nat
  completedPomodoros : Nat
deriving Repr

/-- `saveSession` (session.ts lines 96–107).  The stored list is the
parse of `localStorage['focus0_sessions']`; the function returns the
list written back. -/
def saveSession (session : StudySession) (sessions : List StudySession) :
    List StudySession :=
  match sessions.findIdx? (fun s => s.id == session.id) with
  | some existingIndex => sessions.set existingIndex session
  | none => sessions ++ [session]

/-- `getSessionById` (session.ts lines 121–124). -/
def getSessionById (sessionId : String) (sessions : List StudySession) :
    Option StudySession :=
  sessions.find? (fun s => s.id == sessionId)

/-! ## Compressed share-URL codec (`src/app/api/sessions/route-optimized.ts`)

`encodeSessionData` is `base64url(gzip(JSON.stringify(toUltraMinimal(s))))`
and `decodeSessionData` is `fromUltraMinimal(JSON.parse(gunzip(base64url⁻¹(x))))`.
The JSON/gzip/base64url layers are external library inverse pairs and
are elided, so the encoded payload is represented by the
`UltraMinimalSession` value it serializes. -/

/-- `Omit<SharedSession, 'id'>` of route-optimized.ts (lines 6–12). -/
structure SessionData where
  name : String
  videos : List VideoInfo
  playlists : List PlaylistInfo
  createdAt : Int
deriving DecidableEq, Repr

/-- `UltraMinimalVideoInfo` (route-optimized.ts lines 15–18). -/
structure UltraMinimalVideoInfo where
  i : String
  t : Option String
deriving DecidableEq, Repr

/-- `UltraMinimalPlaylistInfo` (route-optimized.ts lines 20–24). -/
structure UltraMinimalPlaylistInfo where
  i : String
  t : Option String
  v : List UltraMinimalVideoInfo
deriving DecidableEq, Repr

/-- `UltraMinimalSession` (route-optimized.ts lines 26–31). -/
structure UltraMinimalSession where
  n : String
  v : List UltraMinimalVideoInfo
  p : List UltraMinimalPlaylistInfo
  c : Int
deriving DecidableEq, Repr

/-- The title filter `t && t.length > 10 && t.length < 80 ? t : undefined`
used by `toUltraMinimal`. -/
def minimalTitle : Option String → Option String
  | some t => if 10 < t.length ∧ t.length < 80 then some t else none
  | none => none

/-- `toUltraMinimal` (route-optimized.ts lines 47–64). -/
def toUltraMinimal (session : SessionData) : UltraMinimalSession :=
  { n := if session.name.length > 50 then String.mk (session.name.toList.take 50)
         else session.name
    v := session.videos.map fun v => { i := v.id, t := minimalTitle v.title }
    p := session.playlists.map fun p =>
      { i := p.id
        t := minimalTitle p.title
        v := (p.videos.take 50).map fun v => { i := v.id, t := minimalTitle v.title } }
    c := session.createdAt }

/-- JavaScript `o || d` for an optional string (`undefined` and the
empty string are falsy). -/
def jsStringOr (o : Option String) (d : String) : String :=
  match o with
  | some t => if t = "" then d else t
  | none => d

/-- `fromUltraMinimal` (route-optimized.ts lines 67–87). -/
def fromUltraMinimal (minimal : UltraMinimalSession) : SessionData :=
  { name := minimal.n
    videos := minimal.v.map fun v =>
      { id := v.i
        url := "https://www.youtube.com/watch?v=" ++ v.i
        title := some (jsStringOr v.t ("Video " ++ v.i)) }
    playlists := minimal.p.map fun p =>
      { id := p.i
        url := "https://www.youtube.com/playlist?list=" ++ p.i
        title := some (jsStringOr p.t ("Playlist " ++ p.i))
        videos := p.v.map fun v =>
          { id := v.i
            url := "https://www.youtube.com/watch?v=" ++ v.i
            title := some (jsStringOr v.t ("Video " ++ v.i)) } }
    createdAt := minimal.c }

/-- `encodeSessionData` (route-optimized.ts lines 90–100), with the
JSON/gzip/base64url serialization layers elided (they form inverse
pairs supplied by Node's standard library). -/
def encodeSessionData (session : SessionData) : UltraMinimalSession :=
  toUltraMinimal session

/-- `decodeSessionData` (route-optimized.ts lines 103–114) on a payload
produced by `encodeSessionData`, with the inverse serialization layers
elided. -/
def decodeSessionData (encodedData : UltraMinimalSession) : SessionData :=
  fromUltraMinimal encodedData

/-! ## File-backed sharing API (`src/app/api/sessions/route.ts`)

The request body is a parsed JSON value; `none` stands for a body
whose parsing threw (`request.json()` rejected).  `Date.now()`, the
randomly generated session id and the request origin are parameters.
The persistent `sessions` map (mirrored to `.sessions-storage.json`)
is an association list threaded through the handlers. -/

/-- A parsed JSON value. -/
inductive JValue where
  | null
  | bool (b : Bool)
  | num (n : Int)
  | str (s : String)
  | arr (items : List JValue)
  | obj (fields : List (String × JValue))

/-- Whether a JSON value is `null` (destructuring a `null` body throws
a `TypeError`, which the handler's catch block turns into a 500). -/
def jIsNull : JValue → Bool
  | .null => true
  | _ => false

/-- JavaScript truthiness of a JSON value. -/
def jTruthy : JValue → Bool
  | .null => false
  | .bool b => b
  | .num n => n != 0
  | .str s => s != ""
  | .arr _ => true
  | .obj _ => true

/-- Property lookup on a JSON value (`undefined` on non-objects). -/
def jLookup (v : JValue) (key : String) : Option JValue :=
  match v with
  | .obj fields => fields.lookup key
  | _ => none

/-- `isValidVideo` (route.ts lines 86–96): an object with string
`id`, `title` and `thumbnail` properties. -/
def isValidVideo (video : JValue) : Bool :=
  match video with
  | .obj fields =>
    match fields.lookup "id", fields.lookup "title", fields.lookup "thumbnail" with
    | some (.str _), some (.str _), some (.str _) => true
    | _, _, _ => false
  | _ => false

/-- `isValidPlaylist` (route.ts lines 99–113): an object with string
`id` and `title` and an array `videos` whose members all pass
`isValidVideo`. -/
def isValidPlaylist (playlist : JValue) : Bool :=
  match playlist with
  | .obj fields =>
    match fields.lookup "id", fields.lookup "title", fields.lookup "videos" with
    | some (.str _), some (.str _), some (.arr videos) => videos.all isValidVideo
    | _, _, _ => false
  | _ => false

/-- `SharedSession` (route.ts lines 7–14).  `name`, `videos` and
`playlists` are stored as the JSON values taken from the body. -/
structure SharedSession where
  id : String
  name : JValue
  videos : JValue
  playlists : JValue
  createdAt : Int
  expiresAt : Int

/-- `30 * 24 * 60 * 60 * 1000` (route.ts line 133). -/
def thirtyDaysMs : Int := 30 * 24 * 60 * 60 * 1000

/-- The in-memory `sessions` map as an association list from id to
session. -/
def SessionStore := List (String × SharedSession)

/-- JavaScript `Map.set`: replace the entry with the key if present,
otherwise append. -/
def mapSet {α : Type} (store : List (String × α)) (key : String) (value : α) :
    List (String × α) :=
  match store with
  | [] => [(key, value)]
  | (k, v) :: rest =>
    if k = key then (key, value) :: rest else (k, v) :: mapSet rest key value

/-- `cleanupExpiredSessions` (route.ts lines 57–69): delete every
entry with `expiresAt < now`. -/
def cleanupExpiredSessions (now : Int) (store : SessionStore) : SessionStore :=
  store.filter fun entry => !decide (entry.2.expiresAt < now)

/-- A response from the sessions API: an error with its HTTP status,
the POST success payload, or the GET success payload. -/
inductive ApiResponse where
  | failure (status : Nat) (error : String)
  | postCreated (sessionId : String) (shareUrl : String) (expiresAt : Int)
  | getSession (id : String) (name : JValue) (videos playlists : JValue) (createdAt : Int)

/-- The HTTP status of a response (success responses are 200). -/
def statusOf : ApiResponse → Nat
  | .failure status _ => status
  | _ => 200

/-- The test `!x || !Array.isArray(x) || x.length === 0` applied to an
optional body field. -/
def emptyOrNotArray : Option JValue → Bool
  | some x =>
    !jTruthy x ||
      (match x with
       | .arr items => items.isEmpty
       | _ => true)
  | none => true

/-- `name || 'Study Session'` (route.ts line 137). -/
def nameOrDefault : Option JValue → JValue
  | some n => if jTruthy n then n else .str "Study Session"
  | none => .str "Study Session"

/-- `x || []` for the stored `videos`/`playlists` fields
(route.ts lines 138–139). -/
def fieldOrEmptyArray : Option JValue → JValue
  | some x => if jTruthy x then x else .arr []
  | none => .arr []

/-- The guard `x && !x.every(validator)` (route.ts lines 115–127):
`none` means fall through; on a truthy non-array, `.every` is not a
function, the thrown `TypeError` reaches the catch block and the
handler answers 500. -/
def checkEveryValid (validator : JValue → Bool) (errorMsg : String) :
    Option JValue → Option ApiResponse
  | none => none
  | some x =>
    if jTruthy x then
      match x with
      | .arr items =>
        if items.all validator then none else some (.failure 400 errorMsg)
      | _ => some (.failure 500 "Failed to create session")
    else none

/-- `POST /api/sessions` (route.ts lines 71–162). -/
def sessionsPOST (now : Int) (sessionId : String) (origin : String)
    (body : Option JValue) (store : SessionStore) : ApiResponse × SessionStore :=
  match body with
  | none => (.failure 500 "Failed to create session", store)
  | some b =>
    if jIsNull b then (.failure 500 "Failed to create session", store)
    else
    let videos := jLookup b "videos"
    let playlists := jLookup b "playlists"
    if emptyOrNotArray videos && emptyOrNotArray playlists then
      (.failure 400 "At least one video or playlist is required", store)
    else
      match checkEveryValid isValidVideo "Invalid video format" videos with
      | some r => (r, store)
      | none =>
        match checkEveryValid isValidPlaylist "Invalid playlist format" playlists with
        | some r => (r, store)
        | none =>
          let store2 := cleanupExpiredSessions now store
          let session : SharedSession :=
            { id := sessionId
              name := nameOrDefault (jLookup b "name")
              videos := fieldOrEmptyArray videos
              playlists := fieldOrEmptyArray playlists
              createdAt := now
              expiresAt := now + thirtyDaysMs }
          let store3 := mapSet store2 sessionId session
          (.postCreated sessionId (origin ++ "/session/" ++ sessionId) session.expiresAt,
            store3)

/-- `GET /api/sessions` (route.ts lines 164–203); `sessionId` is the
`id` query parameter (`none` when absent; the empty string is falsy
and takes the same 400 branch). -/
def sessionsGET (now : Int) (sessionId : Option String) (store : SessionStore) :
    ApiResponse × SessionStore :=
  match sessionId with
  | none => (.failure 400 "Session ID is required", store)
  | some sid =>
    if sid = "" then (.failure 400 "Session ID is required", store)
    else
      let store2 := cleanupExpiredSessions now store
      match store2.lookup sid with
      | none => (.failure 404 "Session not found or expired", store2)
      | some s => (.getSession s.id s.name s.videos s.playlists s.createdAt, store2)

/-! ## Source-URL sharing API (`src/app/api/sessions/source-urls/route.ts`)

URL strings are modelled as `List Char`.  The `encodeURIComponent`
applied by POST when building the share URL and the percent-decoding
that `URLSearchParams.get` performs when GET reads the query string
form an external inverse pair and are elided, so a query parameter is
represented by the value `searchParams.get` returns.  On top of that
value the GET handler calls `decodeURIComponent` *again*
(source-urls/route.ts lines 95 and 97); this second decode is not part
of an inverse pair and is modelled explicitly by
`decodeURIComponentJS` below (`none` models the `URIError` throw,
which the handler's catch block turns into a 500).  The share URL is
represented by its components (session id, `sources` parameter, `name`
parameter). -/

/-- Value of a hexadecimal digit (code points 48–57 are `0`–`9`,
65–70 are `A`–`F`, 97–102 are `a`–`f`). -/
def hexVal (c : Char) : Option Nat :=
  let n := c.toNat
  if 48 ≤ n ∧ n ≤ 57 then some (n - 48)
  else if 65 ≤ n ∧ n ≤ 70 then some (n - 55)
  else if 97 ≤ n ∧ n ≤ 102 then some (n - 87)
  else none

/-- First phase of `decodeURIComponent`: each `%XX` escape becomes a
byte (`Sum.inr`), every other character stays literal (`Sum.inl`); a
`%` not followed by two hex digits raises `URIError` (`none`). -/
def percentTokens : List Char → Option (List (Sum Char Nat))
  | [] => some []
  | c :: rest =>
    if c = '%' then
      match rest with
      | h1 :: h2 :: rest2 =>
        match hexVal h1, hexVal h2 with
        | some v1, some v2 => (percentTokens rest2).map (.inr (16 * v1 + v2) :: ·)
        | _, _ => none
      | _ => none
    else (percentTokens rest).map (.inl c :: ·)

/-- Second phase of `decodeURIComponent`: runs of escaped bytes are
UTF-8 decoded (continuation bytes must themselves come from escapes);
malformed, overlong, surrogate or out-of-range sequences raise
`URIError` (`none`). -/
def utf8Assemble : List (Sum Char Nat) → Option (List Char)
  | [] => some []
  | .inl c :: rest => (utf8Assemble rest).map (c :: ·)
  | .inr b :: rest =>
    if b < 0x80 then (utf8Assemble rest).map (Char.ofNat b :: ·)
    else if b < 0xC0 then none
    else if b < 0xE0 then
      match rest with
      | .inr b2 :: rest2 =>
        if 0x80 ≤ b2 ∧ b2 < 0xC0 then
          let v := (b - 0xC0) * 64 + (b2 - 0x80)
          if 0x80 ≤ v then (utf8Assemble rest2).map (Char.ofNat v :: ·) else none
        else none
      | _ => none
    else if b < 0xF0 then
      match rest with
      | .inr b2 :: .inr b3 :: rest2 =>
        if (0x80 ≤ b2 ∧ b2 < 0xC0) ∧ (0x80 ≤ b3 ∧ b3 < 0xC0) then
          let v := (b - 0xE0) * 4096 + (b2 - 0x80) * 64 + (b3 - 0x80)
          if 0x800 ≤ v ∧ ¬(0xD800 ≤ v ∧ v ≤ 0xDFFF) then
            (utf8Assemble rest2).map (Char.ofNat v :: ·)
          else none
        else none
      | _ => none
    else if b < 0xF8 then
      match rest with
      | .inr b2 :: .inr b3 :: .inr b4 :: rest2 =>
        if (0x80 ≤ b2 ∧ b2 < 0xC0) ∧ (0x80 ≤ b3 ∧ b3 < 0xC0) ∧ (0x80 ≤ b4 ∧ b4 < 0xC0) then
          let v := (b - 0xF0) * 262144 + (b2 - 0x80) * 4096 + (b3 - 0x80) * 64 + (b4 - 0x80)
          if 0x10000 ≤ v ∧ v ≤ 0x10FFFF then
            (utf8Assemble rest2).map (Char.ofNat v :: ·)
          else none
        else none
      | _ => none
    else none

/-- Modelled JS builtin: `decodeURIComponent` on a character list;
`none` models the `URIError` throw. -/
def decodeURIComponentJS (cs : List Char) : Option (List Char) :=
  match percentTokens cs with
  | none => none
  | some toks => utf8Assemble toks

/-- `SourceSession` (source-urls/route.ts lines 4–9). -/
structure SourceSession where
  id : String
  name : List Char
  sourceUrls : List (List Char)
  createdAt : Int

/-- `sourceUrls.join('|')`. -/
def joinPipe : List (List Char) → List Char
  | [] => []
  | [u] => u
  | u :: rest => u ++ '|' :: joinPipe rest

/-- JavaScript `s.split('|')`. -/
def splitPipe : List Char → List (List Char)
  | [] => [[]]
  | c :: rest =>
    if c = '|' then [] :: splitPipe rest
    else
      match splitPipe rest with
      | h :: t => (c :: h) :: t
      | [] => [[c]]

/-- `cleanupOldSessions` (source-urls/route.ts lines 25–32): delete
sessions created more than thirty days ago. -/
def cleanupOldSessions (now : Int) (store : List (String × SourceSession)) :
    List (String × SourceSession) :=
  store.filter fun entry => !decide (entry.2.createdAt < now - thirtyDaysMs)

/-- A response from the source-urls API. -/
inductive SourceApiResponse where
  | failure (status : Nat) (error : String)
  | created (sessionId : String) (sourcesParam : List Char) (nameParam : List Char)
  | sessionData (id : String) (name : List Char) (sourceUrls : List (List Char))
      (fromUrl : Bool)

/-- The HTTP status of a source-urls response. -/
def sourceStatusOf : SourceApiResponse → Nat
  | .failure status _ => status
  | _ => 200

/-- `name || 'Study Session'` over an optional decoded string. -/
def sourceNameOrDefault (name : Option (List Char)) : List Char :=
  match name with
  | some n => if n.isEmpty then "Study Session".toList else n
  | none => "Study Session".toList

/-- `POST /api/sessions/source-urls` (source-urls/route.ts lines
34–83).  The `created` payload carries the components of the returned
share URL: the session id and the decoded `sources` and `name` query
parameters. -/
def sourceUrlsPOST (now : Int) (sessionId : String) (name : Option (List Char))
    (sourceUrls : Option (List (List Char)))
    (store : List (String × SourceSession)) :
    SourceApiResponse × List (String × SourceSession) :=
  match sourceUrls with
  | none => (.failure 400 "Source URLs are required", store)
  | some urls =>
    if urls.isEmpty then (.failure 400 "Source URLs are required", store)
    else
      let store2 := cleanupOldSessions now store
      let session : SourceSession :=
        { id := sessionId
          name := sourceNameOrDefault name
          sourceUrls := urls
          createdAt := now }
      let store3 := mapSet store2 sessionId session
      (.created sessionId (joinPipe urls) session.name, store3)

/-- The stored-session fallback of the source-urls GET handler
(source-urls/route.ts lines 108–131). -/
def sourceUrlsGETStored (sessionId : Option String)
    (store2 : List (String × SourceSession)) :
    SourceApiResponse × List (String × SourceSession) :=
  match sessionId with
  | none => (.failure 400 "Session ID is required", store2)
  | some sid =>
    if sid = "" then (.failure 400 "Session ID is required", store2)
    else
      match store2.lookup sid with
      | none =>
        (.failure 404 "Session not found or expired. Try creating a new session.", store2)
      | some s => (.sessionData s.id s.name s.sourceUrls false, store2)

/-- `GET /api/sessions/source-urls` (source-urls/route.ts lines
85–140).  `sourcesParam` and `nameParam` are the query-parameter
values as `searchParams.get` returns them, i.e. already once-decoded
(`none` when absent; the empty string is falsy).  The handler then
applies `decodeURIComponent` to each a second time (lines 95 and 97);
a `URIError` from either reaches the catch block and answers 500. -/
def sourceUrlsGET (now : Int) (sessionId : Option String)
    (sourcesParam : Option (List Char)) (nameParam : Option (List Char))
    (store : List (String × SourceSession)) :
    SourceApiResponse × List (String × SourceSession) :=
  let store2 := cleanupOldSessions now store
  match sourcesParam with
  | some sp =>
    if !sp.isEmpty then
      match decodeURIComponentJS sp with
      | none => (.failure 500 "Failed to fetch session", store2)
      | some decodedSources =>
        let sourceUrls := (splitPipe decodedSources).filter fun url => !(jsTrim url).isEmpty
        match
          (match nameParam with
           | some n =>
             if n.isEmpty then some "Shared Study Session".toList
             else decodeURIComponentJS n
           | none => some "Shared Study Session".toList) with
        | none => (.failure 500 "Failed to fetch session", store2)
        | some sessionName =>
          let respId :=
            match sessionId with
            | some sid => if sid = "" then "url-session" else sid
            | none => "url-session"
          (.sessionData respId sessionName sourceUrls true, store2)
    else sourceUrlsGETStored sessionId store2
  | none => sourceUrlsGETStored sessionId store2

/-! ## Specification-side notions used by the claims -/

/-- The claim's notion "a non-empty videos/playlists array": the field
is present and is a JSON array with at least one element. -/
def isNonEmptyArray : Option JValue → Prop
  | some (.arr items) => items ≠ []
  | _ => False

/-- The field is absent, falsy, or an array (so that `.every` is
defined on it whenever the handler calls it). -/
def fieldArrayish : Option JValue → Prop
  | some x => jTruthy x = true → ∃ items, x = .arr items
  | none => True

/-- The field is an array one of whose elements fails the given shape
validator. -/
def hasInvalidElem (validator : JValue → Bool) : Option JValue → Prop
  | some (.arr items) => ∃ x ∈ items, validator x = false
  | _ => False

/-- A concrete `StudySession` used by closed counterexamples and
witnesses (the fields other than `id` are arbitrary but fixed). -/
def sampleStudySession (id : String) : StudySession :=
  { id := id
    name := "Session " ++ id
    createdAt := "2025-01-01T00:00:00.000Z"
    videos := []
    playlists := []
    currentVideoIndex := 0
    focusTime := 0
    pomodoroSettings := { workDuration := 25, shortBreakDuration := 5,
                          longBreakDuration := 15, longBreakInterval := 4 }
    ambientSounds := []
    isActive := false
    totalStudyTime := 0
    completedPomodoros := 0 }

/-! ## Theorems -/

/-- C1: Pomodoro phase scheduling is modular arithmetic on completed
work counts: from a `work` phase, completing (the tick that exhausts
the remaining time) or skipping moves to `longBreak` exactly when
`(completedPomodoros + 1) % longBreakInterval = 0` and to `shortBreak`
otherwise; completing or skipping a break phase always moves to
`work`. -/
theorem pomodoro_phase_scheduling (s : PomodoroSettings) (st : PomodoroState) :
    (st.phase = .work →
      ((skipPhase s st).phase =
        if (st.completedPomodoros + 1) % s.longBreakInterval = 0 then
          PomodoroPhase.longBreak
        else .shortBreak) ∧
      (st.isRunning = true → st.timeRemaining = 1 →
        (tick s st).phase =
          if (st.completedPomodoros + 1) % s.longBreakInterval = 0 then
            PomodoroPhase.longBreak
          else .shortBreak)) ∧
    ((st.phase = .shortBreak ∨ st.phase = .longBreak) →
      (skipPhase s st).phase = .work ∧
      (st.isRunning = true → st.timeRemaining = 1 → (tick s st).phase = .work)) := by
  constructor
  · intro hw
    constructor
    · simp [skipPhase, getNextPhase, hw]
    · intro hr ht
      simp [tick, hr, ht, getNextPhase, hw]
  · intro hb
    have hnw : st.phase ≠ .work := by rcases hb with h | h <;> simp [h]
    constructor
    · simp [skipPhase, getNextPhase, hnw]
    · intro hr ht
      simp [tick, hr, ht, getNextPhase, hnw]

/-- Closed witness for C1 at a concrete work state one second before a
fourth completed pomodoro. -/
theorem pomodoro_phase_scheduling_witness :
    (skipPhase ⟨25, 5, 15, 4⟩ ⟨.work, 1, true, 3, 1⟩).phase = .longBreak ∧
    (tick ⟨25, 5, 15, 4⟩ ⟨.work, 1, true, 3, 1⟩).phase = .longBreak ∧
    (skipPhase ⟨25, 5, 15, 4⟩ ⟨.shortBreak, 1, true, 1, 1⟩).phase = .work := by
  have h1 := pomodoro_phase_scheduling ⟨25, 5, 15, 4⟩ ⟨.work, 1, true, 3, 1⟩
  have h2 := pomodoro_phase_scheduling ⟨25, 5, 15, 4⟩ ⟨.shortBreak, 1, true, 1, 1⟩
  refine ⟨?_, ?_, (h2.2 (Or.inl rfl)).1⟩
  · have := (h1.1 rfl).1
    simpa using this
  · have := (h1.1 rfl).2 rfl rfl
    simpa using this

/-- C4: a tick of a running state with more than one second left just
decrements `timeRemaining`; the tick that exhausts the time moves to
the next phase, reloads the phase duration, increments
`completedPomodoros` exactly for a finished `work` phase, and keeps
the timer running.  (The reloaded phase is never `idle`, and
`getPhaseDuration` is by definition the phase's minute count times
60.) -/
theorem pomodoro_tick_effect (s : PomodoroSettings) (st : PomodoroState)
    (hrun : st.isRunning = true) :
    (1 < st.timeRemaining →
      tick s st = { st with timeRemaining := st.timeRemaining - 1 }) ∧
    (st.timeRemaining = 1 →
      tick s st =
        { phase := getNextPhase s st.phase st.completedPomodoros
          timeRemaining := getPhaseDuration s (getNextPhase s st.phase st.completedPomodoros)
          isRunning := true
          completedPomodoros :=
            if st.phase = .work then st.completedPomodoros + 1 else st.completedPomodoros
          currentCycle :=
            if getNextPhase s st.phase st.completedPomodoros = .work then
              st.currentCycle + 1
            else st.currentCycle } ∧
      getNextPhase s st.phase st.completedPomodoros ≠ .idle) := by
  constructor
  · intro hgt
    have hpos : st.timeRemaining > 0 := Nat.lt_of_lt_of_le Nat.zero_lt_one hgt.le
    have hne : ¬(st.timeRemaining - 1 = 0) := by omega
    simp [tick, hrun, hpos, hne]
  · intro h1
    constructor
    · simp [tick, hrun, h1]
    · unfold getNextPhase
      split
      · split <;> simp
      · simp

/-- Closed witness for C4: the decrement tick at 5 seconds left and
the completing tick at 1 second left, on a running work state. -/
theorem pomodoro_tick_effect_witness :
    tick ⟨25, 5, 15, 4⟩ ⟨.work, 5, true, 0, 1⟩ = ⟨.work, 4, true, 0, 1⟩ ∧
    tick ⟨25, 5, 15, 4⟩ ⟨.work, 1, true, 0, 1⟩ = ⟨.shortBreak, 300, true, 1, 1⟩ := by
  have h1 := pomodoro_tick_effect ⟨25, 5, 15, 4⟩ ⟨.work, 5, true, 0, 1⟩ rfl
  have h2 := pomodoro_tick_effect ⟨25, 5, 15, 4⟩ ⟨.work, 1, true, 0, 1⟩ rfl
  refine ⟨h1.1 (by decide), ?_⟩
  have := (h2.2 rfl).1
  rw [this]
  simp [getNextPhase, getPhaseDuration]

/-- `getNextPhase` never yields `idle`. -/
theorem getNextPhase_ne_idle (s : PomodoroSettings) (p : PomodoroPhase) (n : Nat) :
    getNextPhase s p n ≠ .idle := by
  unfold getNextPhase
  split
  · split <;> simp
  · simp

/-- The strengthened reachability invariant behind C10: an idle
reachable state is the initial state itself, and the cycle counter
never drops below one. -/
theorem pomodoro_reachable_aux {s : PomodoroSettings} {st : PomodoroState}
    (h : PomodoroReachable s st) :
    (st.phase = .idle → st = initialPomodoroState s) ∧ 1 ≤ st.currentCycle := by
  induction h with
  | init => exact ⟨fun _ => rfl, Nat.le_refl 1⟩
  | @start st h ih =>
    constructor
    · intro hid
      by_cases hp : st.phase = .idle
      · simp [startTimer, hp] at hid
      · simp [startTimer, hp] at hid
    · simpa [startTimer] using ih.2
  | @pause st h ih =>
    constructor
    · intro hid
      simp [pauseTimer] at hid
      have h1 := ih.1 hid
      rw [pauseTimer, h1]
      rfl
    · simpa [pauseTimer] using ih.2
  | @reset st h ih => exact ⟨fun _ => rfl, Nat.le_refl 1⟩
  | @skip st h ih =>
    constructor
    · intro hid
      simp [skipPhase] at hid
      exact absurd hid (getNextPhase_ne_idle s st.phase st.completedPomodoros)
    · have h2 := ih.2
      simp [skipPhase]
      split <;> omega
  | @step st h ih =>
    by_cases hg : st.isRunning = true ∧ st.timeRemaining > 0
    · by_cases hz : st.timeRemaining - 1 = 0
      · constructor
        · intro hid
          simp [tick, hg.1, hg.2, hz] at hid
          exact absurd hid (getNextPhase_ne_idle s st.phase st.completedPomodoros)
        · have h2 := ih.2
          simp [tick, hg.1, hg.2, hz]
          split <;> omega
      · constructor
        · intro hid
          simp [tick, hg.1, hg.2, hz] at hid
          have h1 := ih.1 hid
          have hrun := hg.1
          rw [h1] at hrun
          simp [initialPomodoroState] at hrun
        · simpa [tick, hg.1, hg.2, hz] using ih.2
    · constructor
      · intro hid
        simp [tick, hg] at hid
        exact (by simpa [tick, hg] using ih.1 hid : tick s st = initialPomodoroState s)
      · simpa [tick, hg] using ih.2

/-- C10: in every state reachable from the initial state by
`startTimer`, `pauseTimer`, `resetTimer`, `skipPhase` and ticks, an
`idle` phase implies the timer is stopped and `timeRemaining` is the
full work duration (indeed the state is exactly the initial/reset
state), and `currentCycle ≥ 1`, `completedPomodoros ≥ 0` throughout. -/
theorem pomodoro_reachable_invariant (s : PomodoroSettings) (st : PomodoroState)
    (h : PomodoroReachable s st) :
    (st.phase = .idle →
      st = initialPomodoroState s ∧ st.isRunning = false ∧
        st.timeRemaining = s.workDuration * 60) ∧
    1 ≤ st.currentCycle ∧ 0 ≤ st.completedPomodoros := by
  have aux := pomodoro_reachable_aux h
  refine ⟨fun hid => ?_, aux.2, Nat.zero_le _⟩
  have h1 := aux.1 hid
  refine ⟨h1, ?_, ?_⟩ <;> rw [h1] <;> rfl

/-- Closed witness for C10 at the reachable state obtained by
starting the timer and ticking once. -/
theorem pomodoro_reachable_invariant_witness :
    1 ≤ (tick ⟨25, 5, 15, 4⟩
          (startTimer ⟨25, 5, 15, 4⟩ (initialPomodoroState ⟨25, 5, 15, 4⟩))).currentCycle := by
  have h := pomodoro_reachable_invariant ⟨25, 5, 15, 4⟩ _
    (PomodoroReachable.step (PomodoroReachable.start PomodoroReachable.init))
  exact h.2.1

/-- Auxiliary invariant for C3: running a well-formed alternating
trace from any state accumulates exactly the completed interval
durations, and the final open-interval bookkeeping matches
`pendingFocusStart`. -/
theorem runFocusEvents_spec (es : List FocusEvent) :
    ∀ (b : Bool) (start acc : Int), wfFocusTrace b es = true →
      (runFocusEvents ⟨b, start, acc⟩ es).totalFocusTime =
        acc + (completedIntervals (if b then some start else none) es).sum ∧
      (match pendingFocusStart (if b then some start else none) es with
       | some p =>
          (runFocusEvents ⟨b, start, acc⟩ es).isWindowFocused = true ∧
          (runFocusEvents ⟨b, start, acc⟩ es).focusStartTime = p
       | none => (runFocusEvents ⟨b, start, acc⟩ es).isWindowFocused = false) := by
  induction es with
  | nil =>
    intro b start acc _
    cases b with
    | false => exact ⟨by simp [runFocusEvents, completedIntervals], by simp [pendingFocusStart, runFocusEvents]⟩
    | true => exact ⟨by simp [runFocusEvents, completedIntervals], by simp [pendingFocusStart, runFocusEvents]⟩
  | cons e rest ih =>
    intro b start acc hwf
    cases e with
    | focusEvt t =>
      simp [wfFocusTrace] at hwf
      obtain ⟨hb, hrest⟩ := hwf
      subst hb
      have h := ih true t acc hrest
      simpa [runFocusEvents, applyFocusEvent, handleFocus, completedIntervals,
        pendingFocusStart] using h
    | blurEvt t =>
      simp [wfFocusTrace] at hwf
      obtain ⟨hb, hrest⟩ := hwf
      subst hb
      have h := ih false start (acc + (t - start)) hrest
      constructor
      · have h1 := h.1
        simp only [runFocusEvents, applyFocusEvent, handleBlur, List.foldl_cons] at h1 ⊢
        simp [completedIntervals]
        simp at h1
        omega
      · have h2 := h.2
        simpa [runFocusEvents, applyFocusEvent, handleBlur, pendingFocusStart] using h2

/-- C3: starting from a reset at time `t0` (the reset restarts the
open interval when the window is focused), the reported
`getCurrentFocusTime` equals the sum of the durations of all completed
focus-to-blur intervals of the well-formed event trace, plus, while
currently focused, the time since the most recent focus start; nothing
accumulates while blurred. -/
theorem windowFocus_accumulates_intervals (st0 : FocusState) (t0 now : Int)
    (es : List FocusEvent) (hwf : wfFocusTrace st0.isWindowFocused es = true) :
    getCurrentFocusTime now (runFocusEvents (resetFocusTime t0 st0) es) =
      (completedIntervals (if st0.isWindowFocused then some t0 else none) es).sum +
      (match pendingFocusStart (if st0.isWindowFocused then some t0 else none) es with
       | some p => now - p
       | none => 0) := by
  have hreset : resetFocusTime t0 st0 = ⟨st0.isWindowFocused, t0, 0⟩ := rfl
  rw [hreset]
  have h := runFocusEvents_spec es st0.isWindowFocused t0 0 hwf
  rcases hp : pendingFocusStart (if st0.isWindowFocused then some t0 else none) es with _ | p
  · rw [hp] at h
    have h2 := h.2
    simp [getCurrentFocusTime, h2, h.1]
  · rw [hp] at h
    have h2 := h.2
    simp [getCurrentFocusTime, h2.1, h2.2, h.1]

/-- Closed witness for C3: a focused reset at time 0, blurred at 5,
refocused at 10, blurred again at 12, read at time 20 reports 7. -/
theorem windowFocus_accumulates_intervals_witness :
    getCurrentFocusTime 20
      (runFocusEvents (resetFocusTime 0 ⟨true, 99, 42⟩)
        [.blurEvt 5, .focusEvt 10, .blurEvt 12]) = 7 := by
  have h := windowFocus_accumulates_intervals ⟨true, 99, 42⟩ 0 20
    [.blurEvt 5, .focusEvt 10, .blurEvt 12] (by decide)
  rw [h]
  decide

/-- A line whose trim is non-blank never classifies as blank. -/
theorem classifyLine_ne_blank (index : Nat) (u : String) (htr : (jsTrimString u) ≠ "") :
    classifyLine index u ≠ .blank := by
  simp only [classifyLine]
  rw [if_neg htr]
  split
  · simp
  · split <;> simp

/-- Count invariant of `parseYouTubeUrlsFrom`: every non-blank line
contributes exactly one entry to exactly one of the three result
lists. -/
theorem parseYouTubeUrlsFrom_counts : ∀ (urls : List String) (index : Nat),
    (urls.filter fun u => (jsTrimString u) != "").length =
      (parseYouTubeUrlsFrom index urls).videos.length +
        (parseYouTubeUrlsFrom index urls).playlists.length +
        (parseYouTubeUrlsFrom index urls).errors.length := by
  intro urls
  induction urls with
  | nil => intro index; simp [parseYouTubeUrlsFrom]
  | cons u rest ih =>
    intro index
    by_cases htr : (jsTrimString u) = ""
    · have hbl : classifyLine index u = .blank := by simp [classifyLine, htr]
      simp only [parseYouTubeUrlsFrom, hbl, List.filter_cons, htr]
      simpa using ih (index + 1)
    · have hbl := classifyLine_ne_blank index u htr
      rcases hcl : classifyLine index u with _ | v | p | e
      · exact absurd hcl hbl
      all_goals
        simp only [parseYouTubeUrlsFrom, hcl, List.filter_cons]
        have h := ih (index + 1)
        simp [htr]
        omega

/-- C6: the URL parser partitions its input — the number of non-blank
lines equals `videos.length + playlists.length + errors.length` — and
a valid line carrying a `list=` parameter is classified as a playlist
(regardless of whether a video id is also extractable) with exactly 5
placeholder videos. -/
theorem parseYouTubeUrls_partition (urls : List String) :
    ((urls.filter fun u => (jsTrimString u) != "").length =
      (parseYouTubeUrls urls).videos.length + (parseYouTubeUrls urls).playlists.length +
        (parseYouTubeUrls urls).errors.length) ∧
    (∀ (index : Nat) (u pid : String),
      isValidYouTubeUrl (jsTrimString u) = true → extractPlaylistId (jsTrimString u) = some pid →
        classifyLine index u =
          .playlist { id := pid, url := (jsTrimString u), title := some "Loading playlist...",
                      videos := placeholderVideos pid } ∧
        (placeholderVideos pid).length = 5) := by
  constructor
  · exact parseYouTubeUrlsFrom_counts urls 0
  · intro index u pid hval hpl
    have htr : (jsTrimString u) ≠ "" := by
      intro h
      rw [h] at hval
      exact absurd hval (by decide)
    refine ⟨?_, by simp [placeholderVideos]⟩
    simp only [classifyLine]
    rw [if_neg htr]
    simp [hval, hpl]

/-- Closed witness for C6 at a URL that carries both a video id and a
playlist id: it is classified as a playlist with 5 placeholders. -/
theorem parseYouTubeUrls_partition_witness :
    classifyLine 0 "https://youtube.com/watch?v=abc&list=PL1" =
      .playlist { id := "PL1", url := jsTrimString "https://youtube.com/watch?v=abc&list=PL1",
                  title := some "Loading playlist...", videos := placeholderVideos "PL1" } ∧
    (placeholderVideos "PL1").length = 5 :=
  (parseYouTubeUrls_partition []).2 0 "https://youtube.com/watch?v=abc&list=PL1" "PL1"
    (by decide) (by decide)

/-- `List.findIdx?` with a shifted start index. -/
theorem findIdx?_start_succ {α : Type} (p : α → Bool) :
    ∀ (xs : List α) (i : Nat),
      List.findIdx? p xs (i + 1) = (List.findIdx? p xs i).map (· + 1) := by
  intro xs
  induction xs with
  | nil => intro i; rfl
  | cons a l ih =>
    intro i
    rw [List.findIdx?_cons, List.findIdx?_cons]
    by_cases h : p a = true
    · simp [h]
    · simp [h, ih]

/-- `saveSession` walks past a head whose id differs. -/
theorem saveSession_cons_of_ne {x s : StudySession} (xs : List StudySession)
    (hx : (x.id == s.id) = false) :
    saveSession s (x :: xs) = x :: saveSession s xs := by
  unfold saveSession
  rcases h : List.findIdx? (fun t => t.id == s.id) xs with _ | i
  · simp [List.findIdx?_cons, hx, findIdx?_start_succ, h]
  · simp [List.findIdx?_cons, hx, findIdx?_start_succ, h, List.set]

/-- `saveSession` replaces a head whose id matches. -/
theorem saveSession_cons_of_eq {x s : StudySession} (xs : List StudySession)
    (hx : (x.id == s.id) = true) :
    saveSession s (x :: xs) = s :: xs := by
  unfold saveSession
  simp [List.findIdx?_cons, hx, List.set]

/-- C7 (amended): for prior saved lists whose ids are pairwise
distinct — the invariant `saveSession` itself maintains — saving is an
upsert: afterwards the entries with id `s.id` are exactly `[s]`, every
entry with a different id keeps its value and position, and
`getSessionById s.id` returns `s`. -/
theorem saveSession_upsert (s : StudySession) (l : List StudySession)
    (hnd : (l.map fun t => t.id).Nodup) :
    (saveSession s l).filter (fun t => t.id == s.id) = [s] ∧
    (∀ (i : Nat) (t : StudySession), l[i]? = some t → t.id ≠ s.id →
      (saveSession s l)[i]? = some t) ∧
    getSessionById s.id (saveSession s l) = some s := by
  induction l with
  | nil =>
    refine ⟨?_, ?_, ?_⟩
    · simp [saveSession, List.filter]
    · intro i t h _
      simp at h
    · simp [saveSession, getSessionById, List.find?]
  | cons x xs ih =>
    rw [List.map_cons, List.nodup_cons] at hnd
    obtain ⟨hxmem, hnd'⟩ := hnd
    by_cases hx : (x.id == s.id) = true
    · have hxid : x.id = s.id := by simpa using hx
      have hxs : ∀ t ∈ xs, ¬((fun t => t.id == s.id) t = true) := by
        intro t ht hbeq
        have : t.id = s.id := by simpa using hbeq
        exact hxmem (by
          rw [List.mem_map]
          exact ⟨t, ht, by rw [this, hxid]⟩)
      rw [saveSession_cons_of_eq xs hx]
      refine ⟨?_, ?_, ?_⟩
      · rw [List.filter_cons]
        simp only [beq_self_eq_true, if_true]
        rw [List.filter_eq_nil_iff.mpr hxs]
      · intro i t hget hne
        cases i with
        | zero =>
          simp at hget
          rw [← hget] at hne
          exact absurd hxid hne
        | succ n => simpa using hget
      · simp [getSessionById, List.find?]
    · have hx' : (x.id == s.id) = false := Bool.eq_false_iff.mpr hx
      rw [saveSession_cons_of_ne xs hx']
      obtain ⟨f1, f2, f3⟩ := ih hnd'
      refine ⟨?_, ?_, ?_⟩
      · rw [List.filter_cons]
        simp only [hx', if_false]
        exact f1
      · intro i t hget hne
        cases i with
        | zero => simpa using hget
        | succ n =>
          simp only [List.getElem?_cons_succ] at hget ⊢
          exact f2 n t hget hne
      · simp only [getSessionById, List.find?_cons, hx']
        exact f3

/-- C7 counterexample: over a prior list that already holds two
entries with the same id, `saveSession` leaves two entries with that
id, so the saved list does not contain exactly one entry with the
session's id. -/
theorem saveSession_upsert_counterexample :
    ((saveSession (sampleStudySession "A")
        [sampleStudySession "A", sampleStudySession "A"]).filter
      (fun t => t.id == (sampleStudySession "A").id)).length ≠ 1 := by
  decide

/-- Closed witness for C7 on a duplicate-free prior list. -/
theorem saveSession_upsert_witness :
    getSessionById (sampleStudySession "B").id
      (saveSession (sampleStudySession "B") [sampleStudySession "A"]) =
      some (sampleStudySession "B") :=
  (saveSession_upsert (sampleStudySession "B") [sampleStudySession "A"] (by decide)).2.2

/-- C2 counterexample: the share-URL codec is lossy — decoding the
encoded payload of a session whose video has no title and a
non-canonical URL yields a different session (the URL is rewritten to
the canonical watch URL and a fallback title is synthesized). -/
theorem sessionData_roundtrip_counterexample :
    decodeSessionData (encodeSessionData
      { name := "n", videos := [{ id := "a", url := "u" }], playlists := [],
        createdAt := 0 }) ≠
      { name := "n", videos := [{ id := "a", url := "u" }], playlists := [],
        createdAt := 0 } := by
  decide

/-- C2 (amended): the codec round-trip preserves the session name
(when at most 50 characters), the creation time, the ordered video
ids, the ordered playlist ids, and each playlist's first fifty video
ids; titles and URLs are normalized rather than preserved. -/
theorem sessionData_roundtrip_preserves_ids (s : SessionData)
    (hname : s.name.length ≤ 50) :
    (decodeSessionData (encodeSessionData s)).name = s.name ∧
    (decodeSessionData (encodeSessionData s)).createdAt = s.createdAt ∧
    (decodeSessionData (encodeSessionData s)).videos.map (fun v => v.id) =
      s.videos.map (fun v => v.id) ∧
    (decodeSessionData (encodeSessionData s)).playlists.map (fun p => p.id) =
      s.playlists.map (fun p => p.id) ∧
    (decodeSessionData (encodeSessionData s)).playlists.map
        (fun p => p.videos.map fun v => v.id) =
      s.playlists.map (fun p => (p.videos.take 50).map fun v => v.id) := by
  have hn : ¬(s.name.length > 50) := Nat.not_lt.mpr hname
  unfold decodeSessionData encodeSessionData fromUltraMinimal toUltraMinimal
  refine ⟨by simp [hn], rfl, ?_, ?_, ?_⟩
  · simp [List.map_map, Function.comp_def]
  · simp [List.map_map, Function.comp_def]
  · simp [List.map_map, Function.comp_def]

/-- Closed witness for C2 (amended) at a concrete small session. -/
theorem sessionData_roundtrip_preserves_ids_witness :
    (decodeSessionData (encodeSessionData
      { name := "My Session", videos := [{ id := "a", url := "u" }],
        playlists := [{ id := "P", url := "pu", videos := [{ id := "b", url := "bu" }] }],
        createdAt := 7 })).name = "My Session" :=
  (sessionData_roundtrip_preserves_ids
    { name := "My Session", videos := [{ id := "a", url := "u" }],
      playlists := [{ id := "P", url := "pu", videos := [{ id := "b", url := "bu" }] }],
      createdAt := 7 } (by decide)).1

/-- The handler's emptiness test agrees with the claim's "non-empty
array" notion. -/
theorem emptyOrNotArray_iff (o : Option JValue) :
    emptyOrNotArray o = true ↔ ¬ isNonEmptyArray o := by
  cases o with
  | none => simp [emptyOrNotArray, isNonEmptyArray]
  | some v =>
    cases v <;> simp [emptyOrNotArray, isNonEmptyArray, jTruthy]

/-- `checkEveryValid` only ever reports failures. -/
theorem checkEveryValid_failure {validator : JValue → Bool} {msg : String}
    {o : Option JValue} {r : ApiResponse}
    (h : checkEveryValid validator msg o = some r) :
    ∃ st m, r = ApiResponse.failure st m := by
  cases o with
  | none => exact absurd h (by simp [checkEveryValid])
  | some x =>
    by_cases ht : jTruthy x = true
    · cases x <;> simp [checkEveryValid, ht] at h <;>
        first
          | exact ⟨500, "Failed to create session", h.symm⟩
          | (rcases h with ⟨hall, hr⟩
             exact ⟨400, msg, hr.symm⟩)
    · rw [show checkEveryValid validator msg (some x) =
          (if jTruthy x = true then _ else none) from rfl, if_neg ht] at h
      exact absurd h (by simp)

/-- `checkEveryValid` flags a 400 when the field is an array with an
invalid element. -/
theorem checkEveryValid_of_invalid {validator : JValue → Bool} (msg : String)
    {o : Option JValue} (hinv : hasInvalidElem validator o) :
    checkEveryValid validator msg o = some (.failure 400 msg) := by
  match o, hinv with
  | some (.arr items), hinv =>
    obtain ⟨x, hx, hvx⟩ := hinv
    have hall : items.all validator = false := by
      rw [Bool.eq_false_iff]
      intro hall
      rw [List.all_eq_true] at hall
      rw [hall x hx] at hvx
      exact Bool.noConfusion hvx
    simp [checkEveryValid, jTruthy, hall]

/-- `checkEveryValid` passes an absent, falsy, or all-valid array
field through. -/
theorem checkEveryValid_of_valid {validator : JValue → Bool} (msg : String)
    {o : Option JValue} (ha : fieldArrayish o)
    (hno : ¬ hasInvalidElem validator o) :
    checkEveryValid validator msg o = none := by
  cases o with
  | none => rfl
  | some x =>
    by_cases ht : jTruthy x = true
    · obtain ⟨items, hitems⟩ := ha ht
      subst hitems
      have hall : items.all validator = true := by
        rw [List.all_eq_true]
        intro x hx
        by_contra hne
        exact hno ⟨x, hx, Bool.eq_false_iff.mpr hne⟩
      simp [checkEveryValid, jTruthy, hall]
    · simp [checkEveryValid, ht]

/-- `List.lookup` hits only entries of the list. -/
theorem lookup_mem {α β : Type} [BEq α] [LawfulBEq α] :
    ∀ {l : List (α × β)} {k : α} {v : β}, List.lookup k l = some v → (k, v) ∈ l := by
  intro l
  induction l with
  | nil => intro k v h; exact absurd h (by simp)
  | cons e rest ih =>
    intro k v h
    obtain ⟨k', v'⟩ := e
    rw [List.lookup_cons] at h
    by_cases hk : k = k'
    · subst hk
      simp at h
      subst h
      exact List.mem_cons_self _ _
    · have hbeq : (k == k') = false := by simpa using hk
      rw [hbeq] at h
      exact List.mem_cons_of_mem _ (ih h)

/-- After `cleanupExpiredSessions`, an id all of whose entries were
expired is gone. -/
theorem lookup_cleanup_none (now : Int) (sid : String) :
    ∀ (store : List (String × SharedSession)),
      (∀ s, (sid, s) ∈ store → s.expiresAt < now) →
      List.lookup sid (cleanupExpiredSessions now store) = none := by
  intro store
  induction store with
  | nil => intro _; rfl
  | cons e rest ih =>
    intro h
    obtain ⟨k, v⟩ := e
    have hrest : ∀ s, (sid, s) ∈ rest → s.expiresAt < now := fun s hs =>
      h s (List.mem_cons_of_mem _ hs)
    by_cases hk : sid = k
    · subst hk
      have hv : v.expiresAt < now := h v (List.mem_cons_self _ _)
      simpa [cleanupExpiredSessions, List.filter_cons, hv] using ih hrest
    · by_cases hexp : v.expiresAt < now
      · simpa [cleanupExpiredSessions, List.filter_cons, hexp] using ih hrest
      · have hbeq : (sid == k) = false := by simpa using hk
        simpa [cleanupExpiredSessions, List.filter_cons, hexp, List.lookup_cons, hbeq]
          using ih hrest

/-- `Map.set` followed by `Map.get` of the same key yields the stored
value. -/
theorem lookup_mapSet {α : Type} (k : String) (v : α) :
    ∀ (store : List (String × α)), List.lookup k (mapSet store k v) = some v := by
  intro store
  induction store with
  | nil => simp [mapSet, List.lookup_cons]
  | cons e rest ih =>
    obtain ⟨k', v'⟩ := e
    by_cases hk : k' = k
    · simp [mapSet, hk, List.lookup_cons]
    · have hbeq : (k == k') = false := by simpa using fun h => hk h.symm
      simp [mapSet, hk, List.lookup_cons, hbeq]
      exact ih

/-- C5 (amended): sharing-API failures become HTTP 4xx/5xx — an
unparseable or `null` body gives 500; a parsed non-null body with
neither a non-empty videos array nor a non-empty playlists array gives
400; when the two fields are each absent, falsy or arrays, an invalid
element gives 400 (a truthy non-array field instead throws inside
`.every` and gives 500); GET gives 400 on an absent or empty `id` and
404 when every stored entry under the id is expired; and every
rejected POST leaves the session store unchanged. -/
theorem sessionsApi_error_handling (now : Int) (sid : String) (origin : String)
    (store : List (String × SharedSession)) :
    (∀ body : Option JValue, (body = none ∨ body = some .null) →
      statusOf (sessionsPOST now sid origin body store).1 = 500 ∧
      (sessionsPOST now sid origin body store).2 = store) ∧
    (∀ b : JValue, jIsNull b = false →
      ¬ isNonEmptyArray (jLookup b "videos") →
      ¬ isNonEmptyArray (jLookup b "playlists") →
      statusOf (sessionsPOST now sid origin (some b) store).1 = 400 ∧
      (sessionsPOST now sid origin (some b) store).2 = store) ∧
    (∀ b : JValue, jIsNull b = false →
      fieldArrayish (jLookup b "videos") → fieldArrayish (jLookup b "playlists") →
      (hasInvalidElem isValidVideo (jLookup b "videos") ∨
        hasInvalidElem isValidPlaylist (jLookup b "playlists")) →
      statusOf (sessionsPOST now sid origin (some b) store).1 = 400 ∧
      (sessionsPOST now sid origin (some b) store).2 = store) ∧
    (∀ idp : Option String, (idp = none ∨ idp = some "") →
      statusOf (sessionsGET now idp store).1 = 400) ∧
    (sid ≠ "" → (∀ s, (sid, s) ∈ store → s.expiresAt < now) →
      statusOf (sessionsGET now (some sid) store).1 = 404) := by
  refine ⟨?_, ?_, ?_, ?_, ?_⟩
  · rintro body (rfl | rfl) <;> exact ⟨rfl, rfl⟩
  · intro b hb hv hp
    have hv' := (emptyOrNotArray_iff _).mpr hv
    have hp' := (emptyOrNotArray_iff _).mpr hp
    constructor <;> simp [sessionsPOST, hb, hv', hp', statusOf]
  · intro b hb hva hpa hinv
    by_cases hcond : (emptyOrNotArray (jLookup b "videos") &&
        emptyOrNotArray (jLookup b "playlists")) = true
    · constructor <;> simp [sessionsPOST, hb, hcond, statusOf]
    · have hcond' := Bool.eq_false_iff.mpr hcond
      rcases hinv with hA | hB
      · have h400 := checkEveryValid_of_invalid "Invalid video format" hA
        constructor <;> simp [sessionsPOST, hb, hcond', h400, statusOf]
      · by_cases hAv : hasInvalidElem isValidVideo (jLookup b "videos")
        · have h400 := checkEveryValid_of_invalid "Invalid video format" hAv
          constructor <;> simp [sessionsPOST, hb, hcond', h400, statusOf]
        · have hnone := checkEveryValid_of_valid "Invalid video format" hva hAv
          have h400 := checkEveryValid_of_invalid "Invalid playlist format" hB
          constructor <;> simp [sessionsPOST, hb, hcond', hnone, h400, statusOf]
  · rintro idp (rfl | rfl) <;> rfl
  · intro hsid hexp
    simp [sessionsGET, hsid, lookup_cleanup_none now sid store hexp, statusOf]

/-- C5 counterexample: with body `{videos: "x", playlists: [[]]}` the
playlists array has an element failing the playlist validation, yet
POST answers 500 (the `.every` call on the truthy non-array `videos`
throws), not 400; and GET with an empty (present) `id` answers 400,
not 404. -/
theorem sessionsApi_error_handling_counterexample :
    statusOf (sessionsPOST 0 "S" "o"
      (some (.obj [("videos", .str "x"), ("playlists", .arr [.arr []])])) []).1 = 500 ∧
    statusOf (sessionsGET 0 (some "") []).1 = 400 :=
  ⟨rfl, rfl⟩

/-- Closed witness for C5 (amended) on concrete requests. -/
theorem sessionsApi_error_handling_witness :
    statusOf (sessionsPOST 0 "S" "o" none []).1 = 500 ∧
    statusOf (sessionsPOST 0 "S" "o" (some (.obj [])) []).1 = 400 ∧
    statusOf (sessionsPOST 0 "S" "o"
      (some (.obj [("videos", .arr [.num 1])])) []).1 = 400 ∧
    statusOf (sessionsGET 0 none []).1 = 400 ∧
    statusOf (sessionsGET 0 (some "Z")
      [("Z", ⟨"Z", .null, .arr [], .arr [], 0, -1⟩)]).1 = 404 := by
  have h := sessionsApi_error_handling 0 "S" "o" []
  have h5 := sessionsApi_error_handling 0 "Z" "o"
    [("Z", ⟨"Z", .null, .arr [], .arr [], 0, -1⟩)]
  refine ⟨(h.1 none (Or.inl rfl)).1, ?_, ?_, h.2.2.2.1 none (Or.inl rfl), ?_⟩
  · exact (h.2.1 (.obj []) rfl (fun hx => hx) (fun hx => hx)).1
  · have harr : fieldArrayish (jLookup (.obj [("videos", .arr [.num 1])]) "videos") :=
      fun _ => ⟨[.num 1], rfl⟩
    have harr2 : fieldArrayish (jLookup (.obj [("videos", .arr [.num 1])]) "playlists") :=
      trivial
    have hinv : hasInvalidElem isValidVideo
        (jLookup (.obj [("videos", .arr [.num 1])]) "videos") :=
      ⟨.num 1, List.mem_cons_self _ _, rfl⟩
    exact (h.2.2.1 (.obj [("videos", .arr [.num 1])]) rfl harr harr2 (Or.inl hinv)).1
  · refine h5.2.2.2.2 (by decide) ?_
    intro s hs
    rw [List.mem_singleton] at hs
    injection hs with _ h2
    rw [h2]
    decide

/-- C9: every session created by POST gets
`expiresAt = createdAt + 30 days`; a GET success only ever exposes a
stored entry whose `expiresAt` has not passed (expired entries are
purged before the lookup), and an id all of whose entries are expired
falls into the 404 branch. -/
theorem sessions_expiry_invariant (now : Int) (sid : String) (origin : String)
    (store : List (String × SharedSession)) :
    (∀ (body : Option JValue) (sid2 url : String) (e : Int),
      (sessionsPOST now sid origin body store).1 = .postCreated sid2 url e →
      e = now + thirtyDaysMs ∧
      ∃ s', List.lookup sid (sessionsPOST now sid origin body store).2 = some s' ∧
        s'.createdAt = now ∧ s'.expiresAt = s'.createdAt + thirtyDaysMs) ∧
    (∀ (i : String) (n v p : JValue) (c : Int),
      (sessionsGET now (some sid) store).1 = .getSession i n v p c →
      ∃ s', (sid, s') ∈ store ∧ ¬(s'.expiresAt < now) ∧ s'.id = i ∧ s'.createdAt = c) ∧
    (sid ≠ "" → (∀ s', (sid, s') ∈ store → s'.expiresAt < now) →
      statusOf (sessionsGET now (some sid) store).1 = 404) := by
  refine ⟨?_, ?_, ?_⟩
  · intro body sid2 url e hpost
    cases body with
    | none => exact absurd hpost (by simp [sessionsPOST])
    | some b =>
      by_cases hb : jIsNull b = true
      · exact absurd hpost (by simp [sessionsPOST, hb])
      · have hb' : jIsNull b = false := Bool.eq_false_iff.mpr hb
        by_cases hcond : (emptyOrNotArray (jLookup b "videos") &&
            emptyOrNotArray (jLookup b "playlists")) = true
        · exact absurd hpost (by simp [sessionsPOST, hb', hcond])
        · have hcond' := Bool.eq_false_iff.mpr hcond
          rcases hcv : checkEveryValid isValidVideo "Invalid video format"
              (jLookup b "videos") with _ | r
          · rcases hcp : checkEveryValid isValidPlaylist "Invalid playlist format"
                (jLookup b "playlists") with _ | r
            · simp [sessionsPOST, hb', hcond', hcv, hcp] at hpost
              refine ⟨hpost.2.2.symm, ?_⟩
              have h2 : (sessionsPOST now sid origin (some b) store).2 =
                  mapSet (cleanupExpiredSessions now store) sid
                    ⟨sid, nameOrDefault (jLookup b "name"),
                      fieldOrEmptyArray (jLookup b "videos"),
                      fieldOrEmptyArray (jLookup b "playlists"),
                      now, now + thirtyDaysMs⟩ := by
                simp [sessionsPOST, hb', hcond', hcv, hcp]
              rw [h2]
              exact ⟨_, lookup_mapSet sid _ _, rfl, rfl⟩
            · obtain ⟨st, m, rfl⟩ := checkEveryValid_failure hcp
              exact absurd hpost (by simp [sessionsPOST, hb', hcond', hcv, hcp])
          · obtain ⟨st, m, rfl⟩ := checkEveryValid_failure hcv
            exact absurd hpost (by simp [sessionsPOST, hb', hcond', hcv])
  · intro i n v p c hget
    by_cases hsid : sid = ""
    · exact absurd hget (by simp [sessionsGET, hsid])
    · rcases hlk : List.lookup sid (cleanupExpiredSessions now store) with _ | s'
      · exact absurd hget (by simp [sessionsGET, hsid, hlk])
      · have hmem : (sid, s') ∈ store.filter
            (fun entry => !decide (entry.2.expiresAt < now)) := by
          simpa [cleanupExpiredSessions] using lookup_mem hlk
        rw [List.mem_filter] at hmem
        have hpred : ¬(s'.expiresAt < now) := by simpa using hmem.2
        simp [sessionsGET, hsid, hlk] at hget
        exact ⟨s', hmem.1, hpred, hget.1, hget.2.2.2.2⟩
  · intro hsid hexp
    simp [sessionsGET, hsid, lookup_cleanup_none now sid store hexp, statusOf]

/-- Closed witness for C9: a concrete successful POST stores a session
expiring thirty days after creation. -/
theorem sessions_expiry_invariant_witness :
    ∃ s', List.lookup "S"
        (sessionsPOST 0 "S" "o"
          (some (.obj [("videos",
            .arr [.obj [("id", .str "a"), ("title", .str "t"),
              ("thumbnail", .str "h")]])])) []).2 = some s' ∧
      s'.createdAt = 0 ∧ s'.expiresAt = s'.createdAt + thirtyDaysMs :=
  ((sessions_expiry_invariant 0 "S" "o" []).1
    (some (.obj [("videos",
      .arr [.obj [("id", .str "a"), ("title", .str "t"), ("thumbnail", .str "h")]])]))
    "S" ("o" ++ "/session/" ++ "S") (0 + thirtyDaysMs) rfl).2

/-- Splitting a pipe-free string yields the single piece. -/
theorem splitPipe_no_pipe : ∀ (u : List Char), '|' ∉ u → splitPipe u = [u] := by
  intro u
  induction u with
  | nil => intro _; rfl
  | cons c rest ih =>
    intro h
    have hc : ¬(c = '|') := fun hh => h (hh ▸ List.mem_cons_self _ _)
    have hrest : '|' ∉ rest := fun hh => h (List.mem_cons_of_mem _ hh)
    simp [splitPipe, hc, ih hrest]

/-- Splitting after a pipe-free prefix peels off that prefix. -/
theorem splitPipe_append_pipe : ∀ (u cs : List Char), '|' ∉ u →
    splitPipe (u ++ '|' :: cs) = u :: splitPipe cs := by
  intro u
  induction u with
  | nil => intro cs _; simp [splitPipe]
  | cons c rest ih =>
    intro cs h
    have hc : ¬(c = '|') := fun hh => h (hh ▸ List.mem_cons_self _ _)
    have hrest : '|' ∉ rest := fun hh => h (List.mem_cons_of_mem _ hh)
    simp [splitPipe, hc, ih cs hrest]

/-- `split('|')` inverts `join('|')` on non-empty lists of pipe-free
pieces. -/
theorem splitPipe_joinPipe : ∀ (urls : List (List Char)), urls ≠ [] →
    (∀ u ∈ urls, '|' ∉ u) → splitPipe (joinPipe urls) = urls := by
  intro urls
  induction urls with
  | nil => intro h; exact absurd rfl h
  | cons u rest ih =>
    intro _ hnp
    cases rest with
    | nil =>
      have : joinPipe [u] = u := rfl
      rw [this]
      exact splitPipe_no_pipe u (hnp u (List.mem_cons_self _ _))
    | cons v rest' =>
      have hj : joinPipe (u :: v :: rest') = u ++ '|' :: joinPipe (v :: rest') := rfl
      rw [hj, splitPipe_append_pipe u _ (hnp u (List.mem_cons_self _ _)),
        ih (by simp) (fun x hx => hnp x (List.mem_cons_of_mem _ hx))]

/-- On percent-free input, the escape scan leaves every character
literal. -/
theorem percentTokens_no_percent : ∀ (cs : List Char), '%' ∉ cs →
    percentTokens cs = some (cs.map Sum.inl) := by
  intro cs
  induction cs with
  | nil => intro _; rfl
  | cons c rest ih =>
    intro h
    have hc : ¬(c = '%') := fun hh => h (hh ▸ List.mem_cons_self _ _)
    have hrest : '%' ∉ rest := fun hh => h (List.mem_cons_of_mem _ hh)
    have hstep : percentTokens (c :: rest) =
        (percentTokens rest).map (.inl c :: ·) := by
      conv_lhs => unfold percentTokens
      rw [if_neg hc]
    rw [hstep, ih hrest]
    rfl

/-- A token list with no escaped bytes assembles to itself. -/
theorem utf8Assemble_inl : ∀ (cs : List Char),
    utf8Assemble (cs.map Sum.inl) = some cs := by
  intro cs
  induction cs with
  | nil => rfl
  | cons c rest ih =>
    have hstep : utf8Assemble (.inl c :: rest.map .inl) =
        (utf8Assemble (rest.map .inl)).map (c :: ·) := rfl
    rw [List.map_cons, hstep, ih]
    rfl

/-- `decodeURIComponent` is the identity on percent-free strings (and
does not throw on them). -/
theorem decodeURIComponentJS_no_percent (cs : List Char) (h : '%' ∉ cs) :
    decodeURIComponentJS cs = some cs := by
  simp [decodeURIComponentJS, percentTokens_no_percent cs h, utf8Assemble_inl]

/-- A character other than the pipe that occurs in no URL does not
occur in the pipe-join. -/
theorem joinPipe_not_mem {c : Char} (hc : c ≠ '|') :
    ∀ (urls : List (List Char)), (∀ u ∈ urls, c ∉ u) → c ∉ joinPipe urls := by
  intro urls
  induction urls with
  | nil => intro _; simp [joinPipe]
  | cons u rest ih =>
    intro h
    cases rest with
    | nil => simpa [joinPipe] using h u (List.mem_cons_self _ _)
    | cons v rest' =>
      have hj : joinPipe (u :: v :: rest') = u ++ '|' :: joinPipe (v :: rest') := rfl
      rw [hj]
      intro hmem
      rcases List.mem_append.mp hmem with h1 | h2
      · exact h u (List.mem_cons_self _ _) h1
      · rcases List.mem_cons.mp h2 with h3 | h4
        · exact hc h3
        · exact ih (fun x hx => h x (List.mem_cons_of_mem _ hx)) h4

/-- The joined `sources` parameter of a list headed by a non-empty URL
is non-empty (so the parameter is truthy). -/
theorem joinPipe_ne_nil (u : List Char) (rest : List (List Char)) (hu : u ≠ []) :
    joinPipe (u :: rest) ≠ [] := by
  cases rest with
  | nil => simpa [joinPipe] using hu
  | cons v rest' => simp [joinPipe]

/-- The session name stored by the source-urls POST is never the empty
string. -/
theorem sourceNameOrDefault_isEmpty_false (name : Option (List Char)) :
    (sourceNameOrDefault name).isEmpty = false := by
  cases name with
  | none => rfl
  | some n =>
    by_cases h : n.isEmpty = true
    · simp only [sourceNameOrDefault, h, if_true]
      rfl
    · simp only [sourceNameOrDefault, h, if_false]
      exact Bool.eq_false_iff.mpr h

/-- C8 (amended): for POST bodies whose `sourceUrls` are non-blank
strings (non-empty after trimming) containing neither `'|'` nor `'%'`,
and whose resulting session name contains no `'%'`, the share URL
components returned by POST carry the URLs joined by `'|'` and the
session name, and a GET of those components returns exactly the
original URL list and name — for every store contents, i.e. without
consulting the in-memory store.  (A whitespace-only URL, although a
non-empty string, is dropped by the GET filter, and a `'%'` anywhere
is re-decoded — or makes `decodeURIComponent` throw — because GET
percent-decodes the already-decoded parameters a second time; those
two behaviours force the non-blank and percent-free
strengthenings.) -/
theorem sourceUrls_share_roundtrip (now now2 : Int) (sid : String)
    (name : Option (List Char)) (urls : List (List Char))
    (store : List (String × SourceSession))
    (hne : urls ≠ []) (hurls : ∀ u ∈ urls, '|' ∉ u ∧ '%' ∉ u ∧ jsTrim u ≠ [])
    (hnamep : '%' ∉ sourceNameOrDefault name) :
    (sourceUrlsPOST now sid name (some urls) store).1 =
      .created sid (joinPipe urls) (sourceNameOrDefault name) ∧
    (∀ (store2 : List (String × SourceSession)) (idp : Option String),
      (sourceUrlsGET now2 idp (some (joinPipe urls))
          (some (sourceNameOrDefault name)) store2).1 =
        .sessionData
          (match idp with
           | some s => if s = "" then "url-session" else s
           | none => "url-session")
          (sourceNameOrDefault name) urls true) := by
  constructor
  · have hIsEmpty : urls.isEmpty = false := by
      cases urls with
      | nil => exact absurd rfl hne
      | cons _ _ => rfl
    simp [sourceUrlsPOST, hIsEmpty]
  · intro store2 idp
    obtain ⟨u, rest, rfl⟩ : ∃ u rest, urls = u :: rest := by
      cases urls with
      | nil => exact absurd rfl hne
      | cons u rest => exact ⟨u, rest, rfl⟩
    have hu := hurls u (List.mem_cons_self _ _)
    have hune : u ≠ [] := fun h => hu.2.2 (by rw [h]; rfl)
    have hjne := joinPipe_ne_nil u rest hune
    have hIsEmpty : (joinPipe (u :: rest)).isEmpty = false := by
      cases hj : joinPipe (u :: rest) with
      | nil => exact absurd hj hjne
      | cons _ _ => rfl
    have hsplit := splitPipe_joinPipe (u :: rest) hne (fun x hx => (hurls x hx).1)
    have hfilter : (u :: rest).filter (fun url => !(jsTrim url).isEmpty) = u :: rest := by
      rw [List.filter_eq_self]
      intro a ha
      cases hja : jsTrim a with
      | nil => exact absurd hja (hurls a ha).2.2
      | cons _ _ => rfl
    have hnp : '%' ∉ joinPipe (u :: rest) :=
      joinPipe_not_mem (by decide) (u :: rest) (fun x hx => (hurls x hx).2.1)
    have hdec := decodeURIComponentJS_no_percent _ hnp
    have hdecn := decodeURIComponentJS_no_percent _ hnamep
    have hname := sourceNameOrDefault_isEmpty_false name
    simp [sourceUrlsGET, hIsEmpty, hdec, hdecn, hsplit, hfilter, hname]

/-- C8 counterexample: the URL `" "` is a non-empty string containing
no `'|'`, POST accepts it and embeds it in the share URL, yet GET
returns an empty `sourceUrls` list (the whitespace-only URL is
filtered out); and because GET applies `decodeURIComponent` to the
already-decoded parameters again, the non-blank pipe-free URL
`"a%20b"` comes back altered as `"a b"`, while a session name such as
`"100%"` makes the second decode throw and GET answer 500 — so the
original list and name do not round-trip. -/
theorem sourceUrls_share_roundtrip_counterexample :
    (sourceUrlsPOST 0 "S" none (some [[' ']]) []).1 =
      .created "S" [' '] "Study Session".toList ∧
    (sourceUrlsGET 0 (some "S") (some [' ']) (some "Study Session".toList) []).1 =
      .sessionData "S" "Study Session".toList [] true ∧
    (sourceUrlsPOST 0 "S" none (some ["a%20b".toList]) []).1 =
      .created "S" "a%20b".toList "Study Session".toList ∧
    (sourceUrlsGET 0 (some "S") (some "a%20b".toList)
        (some "Study Session".toList) []).1 =
      .sessionData "S" "Study Session".toList ["a b".toList] true ∧
    (sourceUrlsGET 0 (some "S") (some "u".toList) (some "100%".toList) []).1 =
      .failure 500 "Failed to fetch session" :=
  ⟨rfl, rfl, rfl, rfl, rfl⟩

/-- Closed witness for C8 (amended) on two concrete URLs. -/
theorem sourceUrls_share_roundtrip_witness :
    (sourceUrlsGET 5 (some "S") (some (joinPipe ["u1".toList, "u2".toList]))
        (some (sourceNameOrDefault (some "My".toList))) []).1 =
      .sessionData "S" (sourceNameOrDefault (some "My".toList))
        ["u1".toList, "u2".toList] true := by
  have h := sourceUrls_share_roundtrip 0 5 "S" (some "My".toList)
    ["u1".toList, "u2".toList] [] (by decide) (by decide) (by decide)
  simpa using h.2 [] (some "S")

end Focus0
